import Mathlib

/-!
Verification development for the pytesmo validation framework
(`pytesmo.validation_framework`): the orchestration engine that, per job,
reads datasets, masks the temporal reference, temporally matches, scales,
routes column combinations to metric calculators and assembles results.

The repository material available here is the framework documentation
notebook (`docs/validation_framework.ipynb`); the framework modules
themselves (validation, temporal matching, scaling, adapters) are not part
of the available sources, so every definition below is modelled from the
specification's description of those modules, faithful to its words.
-/

namespace Pytesmo

/-- Modelled from the spec: absolute time difference between a candidate
timestamp `t` and a reference timestamp `T` (timestamps are integers,
distances are natural numbers). -/
def tdist (t T : Int) : Nat := (t - T).natAbs

/-- Modelled from the spec: "ties (equal distance on both sides) resolved by
preferring the earlier timestamp".  `better T r b` holds when candidate row
`r` must replace the current best row `b`: it is strictly closer to `T`, or
equally close with a strictly earlier timestamp. -/
def better {α : Type} (T : Int) (r b : Int × α) : Bool :=
  (tdist r.1 T < tdist b.1 T) || ((tdist r.1 T == tdist b.1 T) && (r.1 < b.1))

/-- Modelled from the spec: one step of the nearest-candidate selection. -/
def pick {α : Type} (T : Int) (best : Option (Int × α)) (r : Int × α) :
    Option (Int × α) :=
  match best with
  | none => some r
  | some b => if better T r b then some r else some b

/-- Modelled from the spec: select the nearest row to reference timestamp
`T` among `rows`, ties broken towards the earlier timestamp. -/
def selectNearest {α : Type} (T : Int) (rows : List (Int × α)) :
    Option (Int × α) :=
  rows.foldl (pick T) none

/-- Modelled from the spec: "for every timestamp in the reference index,
finds the single nearest timestamp in each other frame whose absolute time
difference is ≤ window; if none qualifies, the corresponding columns are
missing at that row". -/
def nearestRow {α : Type} (T : Int) (w : Nat) (rows : List (Int × α)) :
    Option (Int × α) :=
  selectNearest T (rows.filter (fun r => tdist r.1 T ≤ w))

theorem better_iff {α : Type} (T : Int) (r b : Int × α) :
    better T r b = true ↔
      tdist r.1 T < tdist b.1 T ∨ (tdist r.1 T = tdist b.1 T ∧ r.1 < b.1) := by
  simp [better]

theorem better_irrefl {α : Type} (T : Int) (b : Int × α) :
    ¬ better T b b = true := by
  simp [better_iff]

theorem better_trans_not {α : Type} (T : Int) (r b m : Int × α)
    (hrb : better T r b = true) (hrm : ¬ better T r m = true) :
    ¬ better T b m = true := by
  rw [better_iff] at hrb ⊢
  rw [better_iff] at hrm
  push_neg at hrm ⊢
  constructor
  · omega
  · intro hd
    rcases hrb with h | h <;> omega

theorem not_better_trans {α : Type} (T : Int) (r b m : Int × α)
    (hrb : ¬ better T r b = true) (hbm : ¬ better T b m = true) :
    ¬ better T r m = true := by
  rw [better_iff] at hrb hbm ⊢
  push_neg at hrb hbm ⊢
  constructor
  · omega
  · intro hd
    omega

theorem foldl_pick_some {α : Type} (T : Int) (rows : List (Int × α)) :
    ∀ b : Int × α, ∃ m, rows.foldl (pick T) (some b) = some m := by
  induction rows with
  | nil => intro b; exact ⟨b, rfl⟩
  | cons r rest ih =>
      intro b
      show ∃ m, rest.foldl (pick T) (pick T (some b) r) = some m
      unfold pick
      by_cases h : better T r b = true
      · simp only [h, if_true]; exact ih r
      · simp only [h, if_false]; exact ih b

theorem foldl_pick_mem {α : Type} (T : Int) (rows : List (Int × α)) :
    ∀ (b m : Int × α), rows.foldl (pick T) (some b) = some m →
      m = b ∨ m ∈ rows := by
  induction rows with
  | nil => intro b m h; simp at h; exact Or.inl h.symm
  | cons r rest ih =>
      intro b m h
      simp only [List.foldl_cons] at h
      unfold pick at h
      by_cases hb : better T r b = true
      · simp only [hb, if_true] at h
        rcases ih r m h with h1 | h1
        · exact Or.inr (by simp [h1])
        · exact Or.inr (by simp [h1])
      · simp only [hb, if_false] at h
        rcases ih b m h with h1 | h1
        · exact Or.inl h1
        · exact Or.inr (by simp [h1])

theorem foldl_pick_min {α : Type} (T : Int) (rows : List (Int × α)) :
    ∀ (b m : Int × α), rows.foldl (pick T) (some b) = some m →
      ¬ better T b m = true ∧ ∀ r ∈ rows, ¬ better T r m = true := by
  induction rows with
  | nil =>
      intro b m h
      simp at h
      subst h
      exact ⟨better_irrefl T _, by simp⟩
  | cons r rest ih =>
      intro b m h
      simp only [List.foldl_cons] at h
      unfold pick at h
      by_cases hb : better T r b = true
      · simp only [hb, if_true] at h
        rcases ih r m h with ⟨hr, hrest⟩
        refine ⟨better_trans_not T r b m hb hr, ?_⟩
        intro x hx
        rcases List.mem_cons.mp hx with hx | hx
        · rw [hx]; exact hr
        · exact hrest x hx
      · simp only [hb, if_false] at h
        rcases ih b m h with ⟨hbm, hrest⟩
        refine ⟨hbm, ?_⟩
        intro x hx
        rcases List.mem_cons.mp hx with hx | hx
        · rw [hx]
          exact not_better_trans T r b m hb hbm
        · exact hrest x hx

theorem selectNearest_some {α : Type} (T : Int) (rows : List (Int × α))
    (hne : rows ≠ []) : ∃ m, selectNearest T rows = some m := by
  cases rows with
  | nil => exact absurd rfl hne
  | cons r rest => exact foldl_pick_some T rest r

theorem selectNearest_mem {α : Type} (T : Int) (rows : List (Int × α))
    (m : Int × α) (h : selectNearest T rows = some m) : m ∈ rows := by
  cases rows with
  | nil => simp [selectNearest] at h
  | cons r rest =>
      rcases foldl_pick_mem T rest r m h with h1 | h1
      · simp [h1]
      · simp [h1]

theorem selectNearest_min {α : Type} (T : Int) (rows : List (Int × α))
    (m : Int × α) (h : selectNearest T rows = some m) :
    ∀ r ∈ rows, ¬ better T r m = true := by
  cases rows with
  | nil => simp [selectNearest] at h
  | cons r rest =>
      rcases foldl_pick_min T rest r m h with ⟨hr, hrest⟩
      intro x hx
      rcases List.mem_cons.mp hx with hx | hx
      · rw [hx]; exact hr
      · exact hrest x hx

theorem nearestRow_mem {α : Type} (T : Int) (w : Nat) (rows : List (Int × α))
    (m : Int × α) (h : nearestRow T w rows = some m) :
    m ∈ rows ∧ tdist m.1 T ≤ w := by
  have hm := selectNearest_mem T _ m h
  rcases List.mem_filter.mp hm with ⟨h1, h2⟩
  exact ⟨h1, by simpa using h2⟩

theorem nearestRow_min {α : Type} (T : Int) (w : Nat) (rows : List (Int × α))
    (m : Int × α) (h : nearestRow T w rows = some m) :
    ∀ r ∈ rows, tdist r.1 T ≤ w → ¬ better T r m = true := by
  intro r hr hrw
  exact selectNearest_min T _ m h r (List.mem_filter.mpr ⟨hr, by simpa using hrw⟩)

theorem nearestRow_some {α : Type} (T : Int) (w : Nat) (rows : List (Int × α))
    (r : Int × α) (hr : r ∈ rows) (hrw : tdist r.1 T ≤ w) :
    ∃ m, nearestRow T w rows = some m := by
  apply selectNearest_some
  exact List.ne_nil_of_mem (List.mem_filter.mpr ⟨hr, by simpa using hrw⟩)

/-- C6: for every reference timestamp `T`, window `w`, and distance `δ ≤ w`,
if the other frame contains the two candidate timestamps `T − δ` and `T + δ`
and no strictly closer candidate, the temporal matcher selects the earlier
timestamp `T − δ` for that reference row. -/
theorem tiebreak_prefers_earlier {α : Type} (T : Int) (w δ : Nat)
    (rows : List (Int × α)) (v v2 : α)
    (hδw : δ ≤ w)
    (hminus : (T - (δ : Int), v) ∈ rows)
    (hplus : (T + (δ : Int), v2) ∈ rows)
    (hno : ∀ r ∈ rows, δ ≤ tdist r.1 T) :
    (nearestRow T w rows).map Prod.fst = some (T - (δ : Int)) := by
  have hdminus : tdist (T - (δ : Int)) T = δ := by
    simp [tdist]
  have hwin : tdist (T - (δ : Int)) T ≤ w := by rw [hdminus]; exact hδw
  rcases nearestRow_some T w rows _ hminus hwin with ⟨m, hm⟩
  rcases nearestRow_mem T w rows m hm with ⟨hmem, _⟩
  have hmin := nearestRow_min T w rows m hm _ hminus hwin
  rw [better_iff] at hmin
  push_neg at hmin
  dsimp only at hmin
  rw [hdminus] at hmin
  have hge : δ ≤ tdist m.1 T := hno m hmem
  have hdm : tdist m.1 T = δ := by omega
  have hle : m.1 ≤ T - (δ : Int) := by
    rcases hmin with ⟨h1, h2⟩
    have := h2 (by omega)
    omega
  have : m.1 = T - (δ : Int) := by
    simp [tdist] at hdm
    omega
  rw [hm]
  simp [this]

/-- Modelled from the spec: the matched mask value at reference timestamp
`t`: the boolean of the nearest row of the mask frame within the window,
defaulting to `False` ("not masked") when no row matches. -/
def maskedOut (w : Nat) (t : Int) (m : List (Int × Bool)) : Bool :=
  (Option.map Prod.snd (nearestRow t w m)).getD false

/-- Modelled from the spec: "a reference row is retained only if every mask
frame (after matching) has value False at that timestamp; rows with no
matched mask value default to not masked (kept)"; the masker returns a
filtered copy of the reference frame. -/
def maskerApply {α : Type} (w : Nat) (ref : List (Int × α))
    (masks : List (List (Int × Bool))) : List (Int × α) :=
  ref.filter (fun r => masks.all (fun m => ! maskedOut w r.1 m))

/-- C5: a reference row is retained by the masker if and only if it is a row
of the reference frame and every mask frame's nearest-matched boolean value
at its timestamp is not `True`; in particular a row for which some mask
frame has no matched value within the window is kept; the result is a
sublist of the (unmutated) input reference frame. -/
theorem masker_retains_iff {α : Type} (w : Nat) (ref : List (Int × α))
    (masks : List (List (Int × Bool))) (r : Int × α) :
    (r ∈ maskerApply w ref masks ↔
      r ∈ ref ∧ ∀ m ∈ masks, Option.map Prod.snd (nearestRow r.1 w m) ≠ some true)
    ∧ ((∀ m ∈ masks, nearestRow r.1 w m = none) → r ∈ ref →
        r ∈ maskerApply w ref masks)
    ∧ (maskerApply w ref masks).Sublist ref := by
  have hcond : ∀ m : List (Int × Bool),
      (! maskedOut w r.1 m) = true ↔
        Option.map Prod.snd (nearestRow r.1 w m) ≠ some true := by
    intro m
    unfold maskedOut
    cases h : nearestRow r.1 w m with
    | none => simp
    | some b =>
        cases hb : b.2 with
        | false => simp
        | true => simp
  refine ⟨?_, ?_, List.filter_sublist ref⟩
  · rw [maskerApply, List.mem_filter, List.all_eq_true]
    constructor
    · rintro ⟨h1, h2⟩
      exact ⟨h1, fun m hm => (hcond m).mp (h2 m hm)⟩
    · rintro ⟨h1, h2⟩
      exact ⟨h1, fun m hm => (hcond m).mpr (h2 m hm)⟩
  · intro hnone hr
    rw [maskerApply, List.mem_filter, List.all_eq_true]
    refine ⟨hr, fun m hm => (hcond m).mpr ?_⟩
    rw [hnone m hm]
    simp

/-- Witness for C6 at a concrete input: reference timestamp 10, window 3,
distance 2, candidates at 8 and 12: the matcher picks 8. -/
theorem tiebreak_prefers_earlier_witness :
    (2 ≤ 3 ∧ ((10:Int) - (2:Nat), 0) ∈ [((8:Int), (0:Nat)), (12, 0)]) ∧
      (nearestRow 10 3 [((8:Int), (0:Nat)), (12, 0)]).map Prod.fst =
        some ((10:Int) - (2:Nat)) := by
  refine ⟨⟨by decide, by decide⟩, ?_⟩
  exact tiebreak_prefers_earlier 10 3 2 _ 0 0 (by decide) (by decide)
    (by decide) (by decide)

/-- Modelled from the spec: the comparison operators a masking reader
adapter may be configured with, "one of {<, <=, >, >=, ==, !=}". -/
inductive CompOp
  | lt
  | le
  | gt
  | ge
  | eq
  | ne
deriving DecidableEq

/-- Modelled from the spec: evaluate a comparison operator on an original
value and the configured threshold. -/
def evalOp : CompOp → ℚ → ℚ → Bool
  | .lt, a, b => decide (a < b)
  | .le, a, b => decide (a ≤ b)
  | .gt, a, b => decide (b < a)
  | .ge, a, b => decide (b ≤ a)
  | .eq, a, b => decide (a = b)
  | .ne, a, b => decide (¬ a = b)

/-- Modelled from the spec: the masking reader adapter "exposes the same
read contract but returns a single boolean column equal to evaluating
operator(original_value, threshold) per row". -/
def maskingAdapterRead (op : CompOp) (thr : ℚ) (rows : List (Int × ℚ)) :
    List (Int × Bool) :=
  rows.map (fun r => (r.1, evalOp op r.2 thr))

/-- C8: for every operator and threshold, the masking adapter's read returns
a frame with the same number of rows and the same timestamps as the wrapped
reader's frame, whose single boolean column at each row equals
`op(original_value, threshold)` applied to the wrapped reader's value there. -/
theorem masking_adapter_pointwise (op : CompOp) (thr : ℚ)
    (rows : List (Int × ℚ)) :
    (maskingAdapterRead op thr rows).length = rows.length
    ∧ (maskingAdapterRead op thr rows).map Prod.fst = rows.map Prod.fst
    ∧ ∀ i : Nat, (maskingAdapterRead op thr rows)[i]? =
        (rows[i]?).map (fun r => (r.1, evalOp op r.2 thr)) := by
  refine ⟨by simp [maskingAdapterRead], by simp [maskingAdapterRead], fun i => ?_⟩
  simp [maskingAdapterRead]

/-- Modelled from the spec: arithmetic mean of a column's values. -/
def mean (l : List ℚ) : ℚ := l.sum / l.length

/-- Modelled from the spec: population variance of a column's values (the
square of its standard deviation). -/
def variance (l : List ℚ) : ℚ :=
  ((l.map (fun x => (x - mean l) ^ 2)).sum) / l.length

/-- Modelled from the spec: minimum of a column's values. -/
def minL : List ℚ → ℚ
  | [] => 0
  | x :: xs => xs.foldl min x

/-- Modelled from the spec: maximum of a column's values. -/
def maxL : List ℚ → ℚ
  | [] => 0
  | x :: xs => xs.foldl max x

/-- Modelled from the spec: min-max scaling, a "linear rescale so column
min/max align with reference min/max". -/
def minMaxScale (src ref : List ℚ) : List ℚ :=
  src.map (fun x =>
    (x - minL src) / (maxL src - minL src) * (maxL ref - minL ref) + minL ref)

/-- Modelled from the spec: mean-std scaling, a "linear rescale so column
mean/standard-deviation align with reference's": each value is centred,
multiplied by the ratio `c` of the reference's standard deviation to the
source's (so `c ≥ 0` and `c ^ 2 * variance src = variance ref`), and shifted
to the reference mean. -/
def meanStdScale (src ref : List ℚ) (c : ℚ) : List ℚ :=
  src.map (fun x => (x - mean src) * c + mean ref)

theorem sum_map_affine (l : List ℚ) (a b : ℚ) :
    (l.map (fun x => a * x + b)).sum = a * l.sum + b * l.length := by
  induction l with
  | nil => simp
  | cons x xs ih =>
      simp only [List.map_cons, List.sum_cons, ih, List.length_cons]
      push_cast
      ring

theorem mean_map_affine (l : List ℚ) (hl : l ≠ []) (a b : ℚ) :
    mean (l.map (fun x => a * x + b)) = a * mean l + b := by
  have hn : (l.length : ℚ) ≠ 0 := by
    exact_mod_cast (List.length_pos.mpr hl).ne'
  unfold mean
  rw [List.length_map, sum_map_affine]
  field_simp

theorem variance_map_affine (l : List ℚ) (hl : l ≠ []) (a b : ℚ) :
    variance (l.map (fun x => a * x + b)) = a ^ 2 * variance l := by
  unfold variance
  rw [mean_map_affine l hl a b, List.length_map, List.map_map]
  have : ((fun x => (x - (a * mean l + b)) ^ 2) ∘ fun x => a * x + b) =
      fun x => a ^ 2 * (x - mean l) ^ 2 := by
    funext x
    simp only [Function.comp]
    ring
  rw [this, List.sum_map_mul_left]
  ring

theorem min_affine (a b x y : ℚ) (ha : 0 ≤ a) :
    min (a * x + b) (a * y + b) = a * min x y + b := by
  rcases le_total x y with h | h
  · rw [min_eq_left h, min_eq_left]
    exact add_le_add_right (mul_le_mul_of_nonneg_left h ha) b
  · rw [min_eq_right h, min_eq_right]
    exact add_le_add_right (mul_le_mul_of_nonneg_left h ha) b

theorem max_affine (a b x y : ℚ) (ha : 0 ≤ a) :
    max (a * x + b) (a * y + b) = a * max x y + b := by
  rcases le_total x y with h | h
  · rw [max_eq_right h, max_eq_right]
    exact add_le_add_right (mul_le_mul_of_nonneg_left h ha) b
  · rw [max_eq_left h, max_eq_left]
    exact add_le_add_right (mul_le_mul_of_nonneg_left h ha) b

theorem minL_map_affine (l : List ℚ) (hl : l ≠ []) (a b : ℚ) (ha : 0 ≤ a) :
    minL (l.map (fun x => a * x + b)) = a * minL l + b := by
  cases l with
  | nil => exact absurd rfl hl
  | cons x xs =>
      clear hl
      simp only [List.map_cons, minL]
      induction xs generalizing x with
      | nil => simp
      | cons y ys ih =>
          simp only [List.map_cons, List.foldl_cons]
          rw [min_affine a b x y ha]
          exact ih (min x y)

theorem maxL_map_affine (l : List ℚ) (hl : l ≠ []) (a b : ℚ) (ha : 0 ≤ a) :
    maxL (l.map (fun x => a * x + b)) = a * maxL l + b := by
  cases l with
  | nil => exact absurd rfl hl
  | cons x xs =>
      clear hl
      simp only [List.map_cons, maxL]
      induction xs generalizing x with
      | nil => simp
      | cons y ys ih =>
          simp only [List.map_cons, List.foldl_cons]
          rw [max_affine a b x y ha]
          exact ih (max x y)

theorem foldl_min_le_init (ys : List ℚ) : ∀ x : ℚ, ys.foldl min x ≤ x := by
  induction ys with
  | nil => intro x; simp
  | cons y ys ih =>
      intro x
      simp only [List.foldl_cons]
      exact le_trans (ih (min x y)) (min_le_left x y)

theorem init_le_foldl_max (ys : List ℚ) : ∀ x : ℚ, x ≤ ys.foldl max x := by
  induction ys with
  | nil => intro x; simp
  | cons y ys ih =>
      intro x
      simp only [List.foldl_cons]
      exact le_trans (le_max_left x y) (ih (max x y))

theorem minL_le_maxL (l : List ℚ) : minL l ≤ maxL l := by
  cases l with
  | nil => simp [minL, maxL]
  | cons x xs =>
      simp only [minL, maxL]
      exact le_trans (foldl_min_le_init xs x) (init_le_foldl_max xs x)

/-- C7: for a matched frame with enough valid observations (a non-constant
non-empty source column and a non-empty reference column), min-max scaling
makes the scaled column's minimum and maximum equal the reference column's,
and mean-std scaling (with ratio `c` of the standard deviations, so `c ≥ 0`
and `c ^ 2 * variance src = variance ref`) makes the scaled column's mean
and variance — hence standard deviation — equal the reference column's. -/
theorem scaling_roundtrip (src ref : List ℚ) (c : ℚ)
    (hs : src ≠ []) (hminmax : minL src < maxL src)
    (hc0 : 0 ≤ c) (hc : c ^ 2 * variance src = variance ref) :
    (minL (minMaxScale src ref) = minL ref
      ∧ maxL (minMaxScale src ref) = maxL ref)
    ∧ (mean (meanStdScale src ref c) = mean ref
      ∧ variance (meanStdScale src ref c) = variance ref) := by
  have hD : maxL src - minL src ≠ 0 := sub_ne_zero.mpr (ne_of_gt hminmax)
  set a : ℚ := (maxL ref - minL ref) / (maxL src - minL src) with ha_def
  set b : ℚ := minL ref - minL src * a with hb_def
  have ha : 0 ≤ a := by
    apply div_nonneg
    · exact sub_nonneg.mpr (minL_le_maxL ref)
    · exact le_of_lt (sub_pos.mpr hminmax)
  have hfun : minMaxScale src ref = src.map (fun x => a * x + b) := by
    unfold minMaxScale
    apply List.map_congr_left
    intro x _
    rw [ha_def, hb_def, ha_def]
    ring
  have hfun2 : meanStdScale src ref c =
      src.map (fun x => c * x + (mean ref - mean src * c)) := by
    unfold meanStdScale
    apply List.map_congr_left
    intro x _
    ring
  refine ⟨⟨?_, ?_⟩, ?_, ?_⟩
  · rw [hfun, minL_map_affine src hs a b ha, hb_def]
    ring
  · rw [hfun, maxL_map_affine src hs a b ha, hb_def]
    have h2 : a * (maxL src - minL src) = maxL ref - minL ref := by
      rw [ha_def]
      exact div_mul_cancel₀ _ hD
    linear_combination h2
  · rw [hfun2, mean_map_affine src hs c (mean ref - mean src * c)]
    ring
  · rw [hfun2, variance_map_affine src hs c (mean ref - mean src * c)]
    exact hc

/-- Witness for C7 at a concrete input: source column `[0, 1]`, reference
column `[0, 2]`, standard-deviation ratio `c = 2`. -/
theorem scaling_roundtrip_witness :
    (([0, 1] : List ℚ) ≠ [] ∧ minL [0, 1] < maxL [0, 1] ∧ (0:ℚ) ≤ 2
      ∧ (2:ℚ) ^ 2 * variance [0, 1] = variance [0, 2]) ∧
    ((minL (minMaxScale [0, 1] [0, 2]) = minL [0, 2]
        ∧ maxL (minMaxScale [0, 1] [0, 2]) = maxL [0, 2])
      ∧ (mean (meanStdScale [0, 1] [0, 2] 2) = mean [0, 2]
        ∧ variance (meanStdScale [0, 1] [0, 2] 2) = variance [0, 2])) := by
  have h1 : (([0, 1] : List ℚ)) ≠ [] := by simp
  have h2 : minL ([0, 1] : List ℚ) < maxL [0, 1] := by
    norm_num [minL, maxL]
  have h3 : (0:ℚ) ≤ 2 := by norm_num
  have h4 : (2:ℚ) ^ 2 * variance [0, 1] = variance [0, 2] := by
    norm_num [variance, mean]
  exact ⟨⟨h1, h2, h3, h4⟩, scaling_roundtrip [0, 1] [0, 2] 2 h1 h2 h3 h4⟩

/-- Modelled from the spec: a TimeSeriesFrame as returned by a dataset
reader: named columns and time-indexed rows (one list of values per
timestamp, aligned with the column names). -/
structure Frame where
  colNames : List String
  rows : List (Int × List ℚ)

/-- Modelled from the spec: a DatasetSpec, "{name (unique string key),
reader, columns, read_kwargs}"; the reader and its arguments are
external collaborators and live in the read environment. -/
structure DatasetSpec where
  name : String
  columns : List String

/-- Modelled from the spec: the outcome of reading one dataset for one job —
a frame, "dataset unavailable for this job" (empty or all-missing read), or
an exception raised by the reader. -/
inductive ReadOutcome
  | data (f : Frame)
  | unavailable
  | failure

/-- Modelled from the spec: a matched frame, whose columns are identified by
(dataset name, column name) pairs so that "identical variable names from
different datasets never collide". -/
structure MatchedFrame where
  cols : List (String × String)
  rows : List (Int × List ℚ)

/-- Modelled from the spec: the fixed set of scaling methods
(CDF-matching, min-max, mean-std, triple-collocation-based, or none). -/
inductive ScalingMethod
  | noScaling
  | cdfMatch
  | minMax
  | meanStd
  | tripleCollocation

/-- Modelled from the spec: "each method defines its own minimum" number of
valid paired observations (e.g. triple collocation needs ≥ 3). -/
def minObs : ScalingMethod → Nat
  | .noScaling => 0
  | .cdfMatch => 2
  | .minMax => 2
  | .meanStd => 2
  | .tripleCollocation => 3

/-- Modelled from the spec: a ResultKey, an "ordered tuple of
(dataset_name, column_name) pairs identifying exactly which dataset/column
combination produced a result". -/
abbrev ResultKey := List (String × String)

/-- Modelled from the spec: a ResultRecord, a "mapping from metric name to a
one-element numeric array, always augmented with gpi, lon, lat, n_obs
entries copied from the job and the matched-frame length". -/
structure ResultRecord where
  metrics : List (String × List ℚ)
  gpi : Int
  lon : ℚ
  lat : ℚ
  n_obs : Nat

/-- Modelled from the spec: a job, "the triple (id, lon, lat)". -/
structure Job where
  id : Int
  lon : ℚ
  lat : ℚ

/-- Modelled from the spec: the per-job error taxonomy of the orchestrator
(job-fatal read/mask failures, unavailable temporal reference, and the
insufficient-data condition that merely skips a combination). -/
inductive VError
  | readFailed
  | maskReadFailed
  | referenceUnavailable
  | insufficientData

/-- Modelled from the spec: the validation setup — dataset specs, the
temporal-reference dataset name, the MatchSpec mapping "(n, k) pair →
MetricCalculator callable", the configured masking dataset names, the
matching window, and the ScalingSpec (method plus the pluggable scaling
strategy applied to each row of a matched frame). -/
structure VConfig where
  datasets : List DatasetSpec
  referenceName : String
  matchSpecs : List ((Nat × Nat) × (Frame → List (String × ℚ)))
  maskNames : List String
  window : Nat
  scalingMethod : ScalingMethod
  scaleApply : MatchedFrame → List ℚ → List ℚ

/-- Modelled from the spec: whether a reader raised an exception. -/
def isFailure : ReadOutcome → Bool
  | .failure => true
  | _ => false

/-- Modelled from the spec: the available non-reference datasets for a job —
those whose read returned data ("datasets with no data are marked
unavailable but do not abort the job"). -/
def availableOthers (cfg : VConfig) (env : String → ReadOutcome) :
    List (String × Frame) :=
  cfg.datasets.filterMap (fun d =>
    if d.name = cfg.referenceName then none
    else
      match env d.name with
      | .data f => some (d.name, f)
      | _ => none)

/-- Modelled from the spec: temporal matching of a group of frames against
the reference frame: every other frame is matched independently against the
reference index with nearest-neighbour-within-window selection and the
columns are concatenated, prefixed by dataset name; reference rows for
which some frame has no match within the window are dropped before
scaling/metrics. -/
def matchFrames (w : Nat) (refName : String) (ref : Frame)
    (others : List (String × Frame)) : MatchedFrame :=
  { cols := ref.colNames.map (fun c => (refName, c))
      ++ others.flatMap (fun p => p.2.colNames.map (fun c => (p.1, c))),
    rows := ref.rows.filterMap (fun r =>
      (others.mapM (fun p => Option.map Prod.snd (nearestRow r.1 w p.2.rows))).map
        (fun vals => (r.1, r.2 ++ vals.flatten))) }

/-- Modelled from the spec: apply the configured pluggable scaling strategy
to every row of a matched frame ("same shape, values transformed"). -/
def scaleRows (cfg : VConfig) (fr : MatchedFrame) : MatchedFrame :=
  { cols := fr.cols, rows := fr.rows.map (fun r => (r.1, cfg.scaleApply fr r.2)) }

/-- Modelled from the spec: the Scaler contract — fails with
`InsufficientDataError` when fewer valid paired observations remain than the
chosen method's minimum, otherwise transforms the matched frame. -/
def scaleF (cfg : VConfig) (fr : MatchedFrame) : Except VError MatchedFrame :=
  if fr.rows.length < minObs cfg.scalingMethod then .error .insufficientData
  else .ok (scaleRows cfg fr)

/-- Modelled from the spec: the column names handed to a metric calculator,
"a DataFrame with the columns [ref, k1, k2 ...] and so on depending on the
value of k". -/
def renameNames : Nat → List String
  | 0 => []
  | Nat.succ m => "ref" :: (List.range m).map (fun i => "k" ++ toString (i + 1))

/-- Modelled from the spec: project a matched frame to a size-k column
grouping. -/
def projectCols (fr : MatchedFrame) (g : List (String × String)) :
    MatchedFrame :=
  { cols := g,
    rows := fr.rows.map (fun r =>
      (r.1, g.map (fun p => r.2.getD (fr.cols.indexOf p) 0))) }

/-- Modelled from the spec: rename the projected columns to
`ref, k1, k2, ...` before handing the frame to a metric calculator. -/
def renameFrame (fr : MatchedFrame) : Frame :=
  { colNames := renameNames fr.cols.length, rows := fr.rows }

/-- Modelled from the spec: one metric-calculator invocation prepared by the
CombinationBuilder: the ResultKey of the grouping, the renamed frame handed
to the calculator, and the calculator registered for the (n, k) MatchSpec. -/
structure DispatchUnit where
  key : ResultKey
  frame : Frame
  calcFn : Frame → List (String × ℚ)

/-- Modelled from the spec: DISPATCH for one matched-and-scaled subset —
"CombinationBuilder enumerates all size-k column groupings and invokes the
MetricCalculator registered for that (n, k)"; a subset whose matched frame
has too few observations raises `InsufficientDataError` internally and is
skipped. -/
def subsetUnits (cfg : VConfig) (maskedRef : Frame)
    (others : List (String × Frame)) (k : Nat)
    (f : Frame → List (String × ℚ)) : List DispatchUnit :=
  match scaleF cfg (matchFrames cfg.window cfg.referenceName maskedRef others) with
  | .error _ => []
  | .ok scaled =>
      (List.sublistsLen k scaled.cols).map
        (fun g => ⟨g, renameFrame (projectCols scaled g), f⟩)

/-- Modelled from the spec: MATCH/SCALE/DISPATCH for one MatchSpec (n, k):
"enumerate all size-n subsets of available non-reference datasets
(reference dataset implicitly included)" and process each. -/
def specUnits (cfg : VConfig) (maskedRef : Frame)
    (avail : List (String × Frame))
    (spec : (Nat × Nat) × (Frame → List (String × ℚ))) : List DispatchUnit :=
  (List.sublistsLen (spec.1.1 - 1) avail).flatMap
    (fun others => subsetUnits cfg maskedRef others spec.1.2 spec.2)

/-- Modelled from the spec: all metric-calculator invocations of a job,
over every configured MatchSpec. -/
def dispatchUnits (cfg : VConfig) (maskedRef : Frame)
    (avail : List (String × Frame)) : List DispatchUnit :=
  cfg.matchSpecs.flatMap (specUnits cfg maskedRef avail)

/-- Modelled from the spec: assemble one ResultRecord, wrapping each metric
value in a one-element array and "augmenting every record with job
id/lon/lat/n_obs". -/
def mkRecord (job : Job) (metrics : List (String × ℚ)) (n : Nat) :
    ResultRecord :=
  { metrics := metrics.map (fun p => (p.1, [p.2])),
    gpi := job.id, lon := job.lon, lat := job.lat, n_obs := n }

/-- Modelled from the spec: DONE — "assemble mapping[ResultKey ->
ResultRecord]" from all dispatch units of the job. -/
def assembleResults (job : Job) (units : List DispatchUnit) :
    List (ResultKey × ResultRecord) :=
  units.map (fun u => (u.key, mkRecord job (u.calcFn u.frame) u.frame.rows.length))

/-- Modelled from the spec: read all configured masking datasets; a failing
mask read is a job-fatal exception of the MASK state. -/
def readMasks (menv : String → Except Unit (List (Int × Bool))) :
    List String → Except Unit (List (List (Int × Bool)))
  | [] => .ok []
  | n :: ns =>
      match menv n, readMasks menv ns with
      | .ok m, .ok ms => .ok (m :: ms)
      | _, _ => .error ()

/-- Modelled from the spec: MASK — the Masker applied to the
temporal-reference frame using all configured masking datasets. -/
def maskedReference (cfg : VConfig) (refFrame : Frame)
    (masks : List (List (Int × Bool))) : Frame :=
  { colNames := refFrame.colNames,
    rows := maskerApply cfg.window refFrame.rows masks }

/-- Modelled from the spec: the single-job entry point
`calc(id, lon, lat) -> mapping[ResultKey -> ResultRecord]`, running the
state machine INIT → READ → MASK → MATCH → SCALE → DISPATCH → DONE, with
FAILED (an error, no partial results) from any reader exception, mask-read
exception, or unavailable temporal reference; it models the source's
`Validation.calc` (`calc` itself is a reserved word in Lean). -/
def calcJob (cfg : VConfig) (env : String → ReadOutcome)
    (menv : String → Except Unit (List (Int × Bool))) (job : Job) :
    Except VError (List (ResultKey × ResultRecord)) :=
  if cfg.datasets.any (fun d => isFailure (env d.name)) then .error .readFailed
  else
    match env cfg.referenceName with
    | .data refFrame =>
        match readMasks menv cfg.maskNames with
        | .ok masks =>
            .ok (assembleResults job
              (dispatchUnits cfg (maskedReference cfg refFrame masks)
                (availableOthers cfg env)))
        | .error _ => .error .maskReadFailed
    | _ => .error .referenceUnavailable

theorem scaleF_ok_shape (cfg : VConfig) (fr scaled : MatchedFrame)
    (h : scaleF cfg fr = .ok scaled) :
    scaled.cols = fr.cols ∧ scaled.rows.length = fr.rows.length := by
  unfold scaleF at h
  split_ifs at h with hlt
  cases h
  unfold scaleRows
  exact ⟨rfl, by simp⟩

theorem mem_assembleResults (job : Job) (units : List DispatchUnit)
    (key : ResultKey) (rec : ResultRecord) :
    (key, rec) ∈ assembleResults job units ↔
      ∃ u ∈ units, u.key = key ∧
        rec = mkRecord job (u.calcFn u.frame) u.frame.rows.length := by
  unfold assembleResults
  rw [List.mem_map]
  constructor
  · rintro ⟨u, hu, heq⟩
    rw [Prod.mk.injEq] at heq
    exact ⟨u, hu, heq.1, heq.2.symm⟩
  · rintro ⟨u, hu, h1, h2⟩
    exact ⟨u, hu, by rw [h1, h2]⟩

theorem mem_dispatchUnits (cfg : VConfig) (maskedRef : Frame)
    (avail : List (String × Frame)) (u : DispatchUnit) :
    u ∈ dispatchUnits cfg maskedRef avail ↔
      ∃ spec ∈ cfg.matchSpecs, u ∈ specUnits cfg maskedRef avail spec := by
  unfold dispatchUnits
  exact List.mem_flatMap

theorem mem_specUnits (cfg : VConfig) (maskedRef : Frame)
    (avail : List (String × Frame))
    (spec : (Nat × Nat) × (Frame → List (String × ℚ))) (u : DispatchUnit) :
    u ∈ specUnits cfg maskedRef avail spec ↔
      ∃ others ∈ List.sublistsLen (spec.1.1 - 1) avail,
        u ∈ subsetUnits cfg maskedRef others spec.1.2 spec.2 := by
  unfold specUnits
  exact List.mem_flatMap

theorem mem_subsetUnits (cfg : VConfig) (maskedRef : Frame)
    (others : List (String × Frame)) (k : Nat)
    (f : Frame → List (String × ℚ)) (u : DispatchUnit) :
    u ∈ subsetUnits cfg maskedRef others k f ↔
      ∃ scaled,
        scaleF cfg (matchFrames cfg.window cfg.referenceName maskedRef others)
          = .ok scaled ∧
        ∃ g ∈ List.sublistsLen k scaled.cols,
          u = ⟨g, renameFrame (projectCols scaled g), f⟩ := by
  unfold subsetUnits
  cases hs : scaleF cfg (matchFrames cfg.window cfg.referenceName maskedRef others) with
  | error e => simp
  | ok scaled =>
      rw [List.mem_map]
      constructor
      · rintro ⟨g, hg, heq⟩
        exact ⟨scaled, rfl, g, hg, heq.symm⟩
      · rintro ⟨scaled2, hs2, g, hg, heq⟩
        injection hs2 with hs2
        subst hs2
        exact ⟨g, hg, heq.symm⟩

theorem calcJob_ok_inv (cfg : VConfig) (env : String → ReadOutcome)
    (menv : String → Except Unit (List (Int × Bool))) (job : Job)
    (m : List (ResultKey × ResultRecord))
    (h : calcJob cfg env menv job = .ok m) :
    ∃ refFrame masks,
      env cfg.referenceName = .data refFrame ∧
      readMasks menv cfg.maskNames = .ok masks ∧
      m = assembleResults job
        (dispatchUnits cfg (maskedReference cfg refFrame masks)
          (availableOthers cfg env)) := by
  unfold calcJob at h
  split_ifs at h with hf
  cases henv : env cfg.referenceName with
  | data refFrame =>
      rw [henv] at h
      cases hmask : readMasks menv cfg.maskNames with
      | ok masks =>
          rw [hmask] at h
          simp only [Except.ok.injEq] at h
          exact ⟨refFrame, masks, rfl, rfl, h.symm⟩
      | error e =>
          rw [hmask] at h
          simp at h
  | unavailable =>
      rw [henv] at h
      simp at h
  | failure =>
      rw [henv] at h
      simp at h

theorem matchFrames_cols_dataset (w : Nat) (refName : String) (ref : Frame)
    (others : List (String × Frame)) (p : String × String)
    (hp : p ∈ (matchFrames w refName ref others).cols) :
    p.1 = refName ∨ p.1 ∈ others.map Prod.fst := by
  unfold matchFrames at hp
  simp only at hp
  rcases List.mem_append.mp hp with h | h
  · rcases List.mem_map.mp h with ⟨c, _, hc⟩
    exact Or.inl (by rw [← hc])
  · rcases List.mem_flatMap.mp h with ⟨q, hq, hc⟩
    rcases List.mem_map.mp hc with ⟨c, _, hc2⟩
    refine Or.inr (List.mem_map.mpr ⟨q, hq, ?_⟩)
    rw [← hc2]

theorem projectCols_rows_length (fr : MatchedFrame)
    (g : List (String × String)) :
    (projectCols fr g).rows.length = fr.rows.length := by
  unfold projectCols
  simp

theorem flatMap_filter_of_nil {A B : Type} (l : List A) (f : A → List B)
    (p : A → Bool) (h : ∀ a ∈ l, p a = false → f a = []) :
    l.flatMap f = (l.filter p).flatMap f := by
  induction l with
  | nil => rfl
  | cons a rest ih =>
      have hrest : rest.flatMap f = (rest.filter p).flatMap f :=
        ih (fun x hx => h x (List.mem_cons_of_mem a hx))
      cases hp : p a with
      | true => simp [List.filter_cons, hp, hrest]
      | false => simp [List.filter_cons, hp, hrest, h a (List.mem_cons_self a rest) hp]

theorem subsetUnits_insufficient (cfg : VConfig) (maskedRef : Frame)
    (others : List (String × Frame)) (k : Nat)
    (f : Frame → List (String × ℚ))
    (hins : (matchFrames cfg.window cfg.referenceName maskedRef others).rows.length
      < minObs cfg.scalingMethod) :
    scaleF cfg (matchFrames cfg.window cfg.referenceName maskedRef others)
      = .error .insufficientData
    ∧ subsetUnits cfg maskedRef others k f = [] := by
  have hsc : scaleF cfg (matchFrames cfg.window cfg.referenceName maskedRef others)
      = .error .insufficientData := by
    unfold scaleF
    rw [if_pos hins]
  refine ⟨hsc, ?_⟩
  unfold subsetUnits
  rw [hsc]

/-- C1: for every configured MatchSpec (n, k) and every job, every ResultKey
present in the mapping returned by `calc` consists of exactly k
(dataset, column) pairs, and the metrics stored under it were computed from
a subset of n − 1 available non-reference datasets that, together with the
temporal reference, was temporally matched with exactly n datasets; every
pair of the key names one of those n datasets. -/
theorem resultkeys_shape (cfg : VConfig) (env : String → ReadOutcome)
    (menv : String → Except Unit (List (Int × Bool))) (job : Job)
    (m : List (ResultKey × ResultRecord))
    (hn : ∀ s ∈ cfg.matchSpecs, 1 ≤ s.1.1)
    (h : calcJob cfg env menv job = .ok m) :
    ∀ key rec, (key, rec) ∈ m →
      ∃ n k, (n, k) ∈ cfg.matchSpecs.map Prod.fst ∧ key.length = k ∧
        ∃ others ∈ List.sublistsLen (n - 1) (availableOthers cfg env),
          (cfg.referenceName :: others.map Prod.fst).length = n ∧
          ∀ p ∈ key, p.1 = cfg.referenceName ∨ p.1 ∈ others.map Prod.fst := by
  intro key rec hmem
  rcases calcJob_ok_inv cfg env menv job m h with ⟨refFrame, masks, henv, hmask, hm⟩
  subst hm
  rcases (mem_assembleResults _ _ _ _).mp hmem with ⟨u, hu, hukey, hurec⟩
  rcases (mem_dispatchUnits _ _ _ _).mp hu with ⟨spec, hspec, hus⟩
  rcases (mem_specUnits _ _ _ _ _).mp hus with ⟨others, hothers, husub⟩
  rcases (mem_subsetUnits _ _ _ _ _ _).mp husub with ⟨scaled, hscaled, g, hg, hueq⟩
  rcases List.mem_sublistsLen.mp hg with ⟨hgsub, hglen⟩
  rcases List.mem_sublistsLen.mp hothers with ⟨hosub, holen⟩
  have hkey : key = g := by
    rw [← hukey, hueq]
  refine ⟨spec.1.1, spec.1.2, ?_, ?_, others, hothers, ?_, ?_⟩
  · exact List.mem_map.mpr ⟨spec, hspec, rfl⟩
  · rw [hkey]
    exact hglen
  · have h1 := hn spec hspec
    simp only [List.length_cons, List.length_map]
    omega
  · intro p hp
    rw [hkey] at hp
    have hpc : p ∈ scaled.cols := hgsub.subset hp
    have hcols := (scaleF_ok_shape cfg _ scaled hscaled).1
    rw [hcols] at hpc
    exact matchFrames_cols_dataset _ _ _ _ p hpc

/-- C2: a job never returns a partial result set: if any configured
dataset's read raises during the READ state the job returns the read error;
if the temporal reference is not readable, or any mask read raises during
the MASK state, the job returns an error; and conversely an ok mapping is
returned only when every reader succeeded, the reference frame was read and
every mask read succeeded — so a failed job returns no ResultRecords at
all. -/
theorem job_all_or_nothing (cfg : VConfig) (env : String → ReadOutcome)
    (menv : String → Except Unit (List (Int × Bool))) (job : Job) :
    ((∃ d ∈ cfg.datasets, isFailure (env d.name) = true) →
        calcJob cfg env menv job = .error .readFailed)
    ∧ ((∀ f, env cfg.referenceName ≠ .data f) →
        ∃ e, calcJob cfg env menv job = .error e)
    ∧ ((∃ e0, readMasks menv cfg.maskNames = .error e0) →
        ∃ e, calcJob cfg env menv job = .error e)
    ∧ (∀ m, calcJob cfg env menv job = .ok m →
        (∀ d ∈ cfg.datasets, isFailure (env d.name) = false)
        ∧ (∃ refFrame, env cfg.referenceName = .data refFrame)
        ∧ (∃ masks, readMasks menv cfg.maskNames = .ok masks)) := by
  refine ⟨?_, ?_, ?_, ?_⟩
  · rintro ⟨d, hd, hfail⟩
    unfold calcJob
    rw [if_pos]
    exact List.any_eq_true.mpr ⟨d, hd, hfail⟩
  · intro hnodata
    unfold calcJob
    by_cases hf : cfg.datasets.any (fun d => isFailure (env d.name)) = true
    · rw [if_pos hf]
      exact ⟨.readFailed, rfl⟩
    · rw [if_neg hf]
      cases henv : env cfg.referenceName with
      | data refFrame => exact absurd henv (hnodata refFrame)
      | unavailable => exact ⟨.referenceUnavailable, rfl⟩
      | failure => exact ⟨.referenceUnavailable, rfl⟩
  · rintro ⟨e0, hmask⟩
    unfold calcJob
    by_cases hf : cfg.datasets.any (fun d => isFailure (env d.name)) = true
    · rw [if_pos hf]
      exact ⟨.readFailed, rfl⟩
    · rw [if_neg hf]
      cases henv : env cfg.referenceName with
      | data refFrame =>
          rw [hmask]
          exact ⟨.maskReadFailed, rfl⟩
      | unavailable => exact ⟨.referenceUnavailable, rfl⟩
      | failure => exact ⟨.referenceUnavailable, rfl⟩
  · intro m h
    rcases calcJob_ok_inv cfg env menv job m h with ⟨refFrame, masks, henv, hmask, _⟩
    refine ⟨?_, ⟨refFrame, henv⟩, ⟨masks, hmask⟩⟩
    intro d hd
    by_contra hne
    have hfail : isFailure (env d.name) = true := by
      simpa using hne
    unfold calcJob at h
    rw [if_pos (List.any_eq_true.mpr ⟨d, hd, hfail⟩)] at h
    cases h

/-- C3: for every job, every ResultRecord in the mapping returned by `calc`
maps each metric name to a one-element numeric array and carries `gpi`,
`lon`, `lat` equal to the job's id, longitude and latitude, and `n_obs`
equal to the number of rows of the matched (and shape-preservingly scaled)
frame of that very combination: the subset of available non-reference
datasets enumerated for a configured MatchSpec (n, k), matched against the
masked reference, whose columns contain every (dataset, column) pair of the
ResultKey. -/
theorem record_contents (cfg : VConfig) (env : String → ReadOutcome)
    (menv : String → Except Unit (List (Int × Bool))) (job : Job)
    (m : List (ResultKey × ResultRecord))
    (h : calcJob cfg env menv job = .ok m) :
    ∀ key rec, (key, rec) ∈ m →
      rec.gpi = job.id ∧ rec.lon = job.lon ∧ rec.lat = job.lat ∧
      (∀ p ∈ rec.metrics, p.2.length = 1) ∧
      ∃ refFrame masks,
        env cfg.referenceName = .data refFrame ∧
        readMasks menv cfg.maskNames = .ok masks ∧
        ∃ n k, (n, k) ∈ cfg.matchSpecs.map Prod.fst ∧ key.length = k ∧
        ∃ others ∈ List.sublistsLen (n - 1) (availableOthers cfg env),
          (∀ p ∈ key, p ∈ (matchFrames cfg.window cfg.referenceName
            (maskedReference cfg refFrame masks) others).cols) ∧
          rec.n_obs = (matchFrames cfg.window cfg.referenceName
            (maskedReference cfg refFrame masks) others).rows.length := by
  intro key rec hmem
  rcases calcJob_ok_inv cfg env menv job m h with ⟨refFrame, masks, henv, hmask, hm⟩
  subst hm
  rcases (mem_assembleResults _ _ _ _).mp hmem with ⟨u, hu, hukey, hurec⟩
  rcases (mem_dispatchUnits _ _ _ _).mp hu with ⟨spec, hspec, hus⟩
  rcases (mem_specUnits _ _ _ _ _).mp hus with ⟨others, hothers, husub⟩
  rcases (mem_subsetUnits _ _ _ _ _ _).mp husub with ⟨scaled, hscaled, g, hg, hueq⟩
  rcases List.mem_sublistsLen.mp hg with ⟨hgsub, hglen⟩
  have hkey : key = g := by
    rw [← hukey, hueq]
  have hcols := (scaleF_ok_shape cfg _ scaled hscaled).1
  subst hurec
  refine ⟨rfl, rfl, rfl, ?_, refFrame, masks, henv, hmask,
    spec.1.1, spec.1.2, List.mem_map.mpr ⟨spec, hspec, rfl⟩, ?_,
    others, hothers, ?_, ?_⟩
  · intro p hp
    unfold mkRecord at hp
    simp only at hp
    rcases List.mem_map.mp hp with ⟨q, _, hq⟩
    rw [← hq]
    rfl
  · rw [hkey]
    exact hglen
  · intro p hp
    rw [hkey] at hp
    have hpc : p ∈ scaled.cols := hgsub.subset hp
    rw [hcols] at hpc
    exact hpc
  · show (mkRecord job (u.calcFn u.frame) u.frame.rows.length).n_obs = _
    unfold mkRecord
    simp only
    rw [hueq]
    show (renameFrame (projectCols scaled g)).rows.length = _
    unfold renameFrame
    simp only
    rw [projectCols_rows_length]
    exact (scaleF_ok_shape cfg _ scaled hscaled).2

/-- C4: when a combination's matched frame has fewer valid paired
observations than the configured scaling method's minimum,
`InsufficientDataError` is raised for it (the Scaler returns that error),
the combination contributes no dispatch unit — hence no ResultKey — and the
MatchSpec's full unit list equals the one computed from only the
sufficient subsets, so every other combination still produces its results. -/
theorem insufficient_skip (cfg : VConfig) (maskedRef : Frame)
    (avail : List (String × Frame)) (n k : Nat)
    (f : Frame → List (String × ℚ)) (others : List (String × Frame))
    (hothers : others ∈ List.sublistsLen (n - 1) avail)
    (hins : (matchFrames cfg.window cfg.referenceName maskedRef others).rows.length
      < minObs cfg.scalingMethod) :
    scaleF cfg (matchFrames cfg.window cfg.referenceName maskedRef others)
      = .error .insufficientData
    ∧ subsetUnits cfg maskedRef others k f = []
    ∧ specUnits cfg maskedRef avail ((n, k), f) =
        ((List.sublistsLen (n - 1) avail).filter (fun o =>
          decide (minObs cfg.scalingMethod ≤
            (matchFrames cfg.window cfg.referenceName maskedRef o).rows.length))).flatMap
          (fun o => subsetUnits cfg maskedRef o k f) := by
  refine ⟨(subsetUnits_insufficient cfg maskedRef others k f hins).1,
    (subsetUnits_insufficient cfg maskedRef others k f hins).2, ?_⟩
  unfold specUnits
  apply flatMap_filter_of_nil
  intro o _ hpo
  have hlt : (matchFrames cfg.window cfg.referenceName maskedRef o).rows.length
      < minObs cfg.scalingMethod := by
    simpa using hpo
  exact (subsetUnits_insufficient cfg maskedRef o k f hlt).2

/-- C9: temporal matching is deterministic — it is a pure function of the
reference frame, the other frames and the window, so two invocations with
identical inputs produce identical output frames (same columns, same
rows). -/
theorem matching_deterministic (w w2 : Nat) (rn rn2 : String)
    (ref ref2 : Frame) (others others2 : List (String × Frame))
    (hw : w = w2) (hr : rn = rn2) (hf : ref = ref2) (ho : others = others2) :
    matchFrames w rn ref others = matchFrames w2 rn2 ref2 others2
    ∧ (matchFrames w rn ref others).cols = (matchFrames w2 rn2 ref2 others2).cols
    ∧ (matchFrames w rn ref others).rows = (matchFrames w2 rn2 ref2 others2).rows := by
  subst hw
  subst hr
  subst hf
  subst ho
  exact ⟨rfl, rfl, rfl⟩

/-- C10: every frame handed to a metric calculator by the dispatcher has its
columns renamed to `ref, k1, k2, ...` (as many names as the ResultKey has
pairs) instead of the dataset-prefixed column names produced by temporal
matching, so a calculator never sees source dataset or variable names. -/
theorem calculator_frame_renamed (cfg : VConfig) (maskedRef : Frame)
    (avail : List (String × Frame)) :
    ∀ u ∈ dispatchUnits cfg maskedRef avail,
      u.frame.colNames = renameNames u.key.length
      ∧ (u.key ≠ [] → u.frame.colNames =
          "ref" :: (List.range (u.key.length - 1)).map
            (fun i => "k" ++ toString (i + 1))) := by
  intro u hu
  rcases (mem_dispatchUnits _ _ _ _).mp hu with ⟨spec, hspec, hus⟩
  rcases (mem_specUnits _ _ _ _ _).mp hus with ⟨others, hothers, husub⟩
  rcases (mem_subsetUnits _ _ _ _ _ _).mp husub with ⟨scaled, hscaled, g, hg, hueq⟩
  subst hueq
  constructor
  · show (renameFrame (projectCols scaled g)).colNames = renameNames g.length
    unfold renameFrame projectCols
    simp only
  · intro hne
    show (renameFrame (projectCols scaled g)).colNames = _
    cases g with
    | nil => exact absurd rfl hne
    | cons a rest =>
        unfold renameFrame projectCols renameNames
        simp only [List.length_cons, Nat.add_sub_cancel]

/-- Concrete ASCAT-like frame used by the witnesses. -/
def wFrameA : Frame := ⟨["sm"], [(0, [1]), (1, [2]), (2, [3])]⟩

/-- Concrete ISMN-like reference frame used by the witnesses. -/
def wFrameB : Frame := ⟨["soil"], [(0, [10]), (1, [20]), (2, [30])]⟩

/-- Concrete metric calculator used by the witnesses. -/
def wCalcFn : Frame → List (String × ℚ) := fun _ => [("R", 1)]

/-- Concrete (identity) scaling strategy used by the witnesses. -/
def wScale : MatchedFrame → List ℚ → List ℚ := fun _ v => v

/-- Concrete validation setup used by the witnesses: two datasets, the
ISMN-like one as temporal reference, one (2, 2) MatchSpec, no masking,
window 0, no scaling. -/
def wcfg : VConfig :=
  ⟨[⟨"ISMN", ["soil"]⟩, ⟨"ASCAT", ["sm"]⟩], "ISMN", [((2, 2), wCalcFn)],
    [], 0, .noScaling, wScale⟩

/-- Concrete read environment used by the witnesses. -/
def wenv : String → ReadOutcome := fun n =>
  if n = "ISMN" then .data wFrameB
  else if n = "ASCAT" then .data wFrameA
  else .unavailable

/-- Concrete mask-read environment used by the witnesses. -/
def wmenv : String → Except Unit (List (Int × Bool)) := fun _ => .ok []

/-- Concrete job used by the witnesses. -/
def wjob : Job := ⟨7, 10, 20⟩

/-- The result mapping `calcJob` produces on the witness setup. -/
def wres : List (ResultKey × ResultRecord) :=
  [([("ISMN", "soil"), ("ASCAT", "sm")], ⟨[("R", [1])], 7, 10, 20, 3⟩)]

theorem wres_eq : calcJob wcfg wenv wmenv wjob = .ok wres := rfl

/-- Witness for C1 on the concrete witness setup. -/
theorem resultkeys_shape_witness :
    ((∀ s ∈ wcfg.matchSpecs, 1 ≤ s.1.1)
      ∧ calcJob wcfg wenv wmenv wjob = .ok wres) ∧
    (∀ key rec, (key, rec) ∈ wres →
      ∃ n k, (n, k) ∈ wcfg.matchSpecs.map Prod.fst ∧ key.length = k ∧
        ∃ others ∈ List.sublistsLen (n - 1) (availableOthers wcfg wenv),
          (wcfg.referenceName :: others.map Prod.fst).length = n ∧
          ∀ p ∈ key, p.1 = wcfg.referenceName ∨ p.1 ∈ others.map Prod.fst) := by
  have hn : ∀ s ∈ wcfg.matchSpecs, 1 ≤ s.1.1 := by
    intro s hs
    simp only [wcfg] at hs
    rw [List.mem_singleton] at hs
    subst hs
    decide
  exact ⟨⟨hn, wres_eq⟩, resultkeys_shape wcfg wenv wmenv wjob wres hn wres_eq⟩

/-- Concrete read environment in which the ASCAT-like reader raises. -/
def wenvFail : String → ReadOutcome := fun n =>
  if n = "ISMN" then .data wFrameB else .failure

/-- Validation setup with one masking dataset, used by the C2 witness. -/
def wcfgM : VConfig :=
  ⟨[⟨"ISMN", ["soil"]⟩, ⟨"ASCAT", ["sm"]⟩], "ISMN", [((2, 2), wCalcFn)],
    ["FLAG"], 0, .noScaling, wScale⟩

/-- Concrete mask-read environment whose reads raise, used by the C2
witness. -/
def wmenvFail : String → Except Unit (List (Int × Bool)) := fun _ => .error ()

/-- Witness for C2: a failing dataset reader in the READ state fails the
whole job, and a failing mask read in the MASK state also fails the whole
job. -/
theorem job_all_or_nothing_witness :
    ((∃ d ∈ wcfg.datasets, isFailure (wenvFail d.name) = true)
      ∧ calcJob wcfg wenvFail wmenv wjob = .error .readFailed)
    ∧ ((∃ e0, readMasks wmenvFail wcfgM.maskNames = .error e0)
      ∧ ∃ e, calcJob wcfgM wenv wmenvFail wjob = .error e) := by
  have hex : ∃ d ∈ wcfg.datasets, isFailure (wenvFail d.name) = true := by
    refine ⟨⟨"ASCAT", ["sm"]⟩, ?_, rfl⟩
    simp [wcfg]
  have hmask : ∃ e0, readMasks wmenvFail wcfgM.maskNames = .error e0 := ⟨(), rfl⟩
  exact ⟨⟨hex, (job_all_or_nothing wcfg wenvFail wmenv wjob).1 hex⟩,
    ⟨hmask, (job_all_or_nothing wcfgM wenv wmenvFail wjob).2.2.1 hmask⟩⟩

/-- Witness for C3 on the concrete witness setup. -/
theorem record_contents_witness :
    (calcJob wcfg wenv wmenv wjob = .ok wres) ∧
    (∀ key rec, (key, rec) ∈ wres →
      rec.gpi = wjob.id ∧ rec.lon = wjob.lon ∧ rec.lat = wjob.lat ∧
      (∀ p ∈ rec.metrics, p.2.length = 1) ∧
      ∃ refFrame masks,
        wenv wcfg.referenceName = .data refFrame ∧
        readMasks wmenv wcfg.maskNames = .ok masks ∧
        ∃ n k, (n, k) ∈ wcfg.matchSpecs.map Prod.fst ∧ key.length = k ∧
        ∃ others ∈ List.sublistsLen (n - 1) (availableOthers wcfg wenv),
          (∀ p ∈ key, p ∈ (matchFrames wcfg.window wcfg.referenceName
            (maskedReference wcfg refFrame masks) others).cols) ∧
          rec.n_obs = (matchFrames wcfg.window wcfg.referenceName
            (maskedReference wcfg refFrame masks) others).rows.length) :=
  ⟨wres_eq, record_contents wcfg wenv wmenv wjob wres wres_eq⟩

/-- Short masked reference frame (one row) used by the C4 witness. -/
def wMaskedShort : Frame := ⟨["soil"], [(0, [10])]⟩

/-- Validation setup with mean-std scaling used by the C4 witness. -/
def wcfgMS : VConfig :=
  ⟨[⟨"ISMN", ["soil"]⟩, ⟨"ASCAT", ["sm"]⟩], "ISMN", [((2, 2), wCalcFn)],
    [], 0, .meanStd, wScale⟩

/-- Witness for C4: one matched row is fewer than mean-std scaling's minimum
of two, so the combination is skipped. -/
theorem insufficient_skip_witness :
    ([("ASCAT", wFrameA)] ∈ List.sublistsLen (2 - 1) [("ASCAT", wFrameA)]
      ∧ (matchFrames wcfgMS.window wcfgMS.referenceName wMaskedShort
          [("ASCAT", wFrameA)]).rows.length < minObs wcfgMS.scalingMethod) ∧
    (scaleF wcfgMS (matchFrames wcfgMS.window wcfgMS.referenceName wMaskedShort
        [("ASCAT", wFrameA)]) = .error .insufficientData
      ∧ subsetUnits wcfgMS wMaskedShort [("ASCAT", wFrameA)] 2 wCalcFn = []
      ∧ specUnits wcfgMS wMaskedShort [("ASCAT", wFrameA)] ((2, 2), wCalcFn) =
          ((List.sublistsLen (2 - 1) [("ASCAT", wFrameA)]).filter (fun o =>
            decide (minObs wcfgMS.scalingMethod ≤
              (matchFrames wcfgMS.window wcfgMS.referenceName wMaskedShort
                o).rows.length))).flatMap
            (fun o => subsetUnits wcfgMS wMaskedShort o 2 wCalcFn)) := by
  have h1 : [("ASCAT", wFrameA)] ∈ List.sublistsLen (2 - 1) [("ASCAT", wFrameA)] :=
    List.mem_sublistsLen.mpr ⟨List.Sublist.refl _, rfl⟩
  have h2 : (matchFrames wcfgMS.window wcfgMS.referenceName wMaskedShort
      [("ASCAT", wFrameA)]).rows.length < minObs wcfgMS.scalingMethod := by
    show 1 < 2
    norm_num
  exact ⟨⟨h1, h2⟩, insufficient_skip wcfgMS wMaskedShort [("ASCAT", wFrameA)]
    2 2 wCalcFn [("ASCAT", wFrameA)] h1 h2⟩

/-- Witness for C9 on concrete frames. -/
theorem matching_deterministic_witness :
    ((0 : Nat) = 0 ∧ "ISMN" = "ISMN" ∧ wFrameB = wFrameB
      ∧ [("ASCAT", wFrameA)] = [("ASCAT", wFrameA)]) ∧
    (matchFrames 0 "ISMN" wFrameB [("ASCAT", wFrameA)]
        = matchFrames 0 "ISMN" wFrameB [("ASCAT", wFrameA)]
      ∧ (matchFrames 0 "ISMN" wFrameB [("ASCAT", wFrameA)]).cols
        = (matchFrames 0 "ISMN" wFrameB [("ASCAT", wFrameA)]).cols
      ∧ (matchFrames 0 "ISMN" wFrameB [("ASCAT", wFrameA)]).rows
        = (matchFrames 0 "ISMN" wFrameB [("ASCAT", wFrameA)]).rows) :=
  ⟨⟨rfl, rfl, rfl, rfl⟩,
    matching_deterministic 0 0 "ISMN" "ISMN" wFrameB wFrameB
      [("ASCAT", wFrameA)] [("ASCAT", wFrameA)] rfl rfl rfl rfl⟩

/-- The dispatch unit the witness setup produces. -/
def wunit : DispatchUnit :=
  ⟨[("ISMN", "soil"), ("ASCAT", "sm")],
    ⟨["ref", "k1"], [(0, [10, 1]), (1, [20, 2]), (2, [30, 3])]⟩, wCalcFn⟩

/-- Witness for C10 on the concrete witness setup. -/
theorem calculator_frame_renamed_witness :
    (wunit ∈ dispatchUnits wcfg (maskedReference wcfg wFrameB [])
        (availableOthers wcfg wenv)
      ∧ wunit.key ≠ []) ∧
    (wunit.frame.colNames = renameNames wunit.key.length
      ∧ wunit.frame.colNames = "ref" :: (List.range (wunit.key.length - 1)).map
          (fun i => "k" ++ toString (i + 1))) := by
  have heq : dispatchUnits wcfg (maskedReference wcfg wFrameB [])
      (availableOthers wcfg wenv) = [wunit] := rfl
  have hmem : wunit ∈ dispatchUnits wcfg (maskedReference wcfg wFrameB [])
      (availableOthers wcfg wenv) := by
    rw [heq]
    exact List.mem_singleton.mpr rfl
  have hne : wunit.key ≠ [] := by simp [wunit]
  have h := calculator_frame_renamed wcfg (maskedReference wcfg wFrameB [])
    (availableOthers wcfg wenv) wunit hmem
  exact ⟨⟨hmem, hne⟩, h.1, h.2 hne⟩

end Pytesmo
